import Mathlib

/-!
Verification of the Openlist-Ani download state machine value model and
RSS ingestion pipeline, shallowly embedded from the Python source
(src/openlist_ani/core/download/downloader/base.py, src/openlist_ani/core/rss.py,
src/openlist_ani/assistant/telegram_assistant.py).
-/

namespace OpenlistAni

/-- Modelled from the spec: the closed lifecycle enumeration of §3
(model/task.py is not available in the source tree).
States: Pending, Downloading, Downloaded, PostProcessing, Completed,
plus the orthogonal terminal Failed. -/
inductive DownloadState where
  | pending
  | downloading
  | downloaded
  | postProcessing
  | completed
  | failed
deriving DecidableEq, Repr

/-- Embeds the dataclass StateTransition of
core/download/downloader/base.py: success flag, optional next state,
re-dispatch delay (a Python float; carried here as a rational, no
arithmetic is performed on it), optional error message. -/
structure StateTransition where
  success : Bool
  next_state : Option DownloadState
  delay_seconds : Rat
  error_message : Option String
deriving DecidableEq, Repr

/-- StateTransition.ok: success with optional next state; defaults
delay_seconds to 0 and error_message to None, as the dataclass does. -/
def StateTransition.ok (next_state : Option DownloadState) : StateTransition :=
  ⟨true, next_state, 0, none⟩

/-- StateTransition.transition: defined in the source as ok(next_state=next_state). -/
def StateTransition.transition (next_state : DownloadState) : StateTransition :=
  StateTransition.ok (some next_state)

/-- StateTransition.poll: success, explicit self state, given delay. -/
def StateTransition.poll (state : DownloadState) (delay_seconds : Rat) : StateTransition :=
  ⟨true, some state, delay_seconds, none⟩

/-- StateTransition.fail: failure carrying the error message. -/
def StateTransition.fail (error_message : String) : StateTransition :=
  ⟨false, none, 0, some error_message⟩

/-- Modelled from the spec: the Lifecycle Controller's
transition-application step of §4.1 (the controller module
core/download/manager.py is not available in the source tree).
Given the current state and a returned StateTransition it yields the
resulting (state, scheduled-delay) pair: a failed transition goes to
Failed and never applies next_state; a successful transition with no
next state stays put; otherwise the given next state is adopted
(covering both the explicit self-transition and a forward advance). -/
def apply_transition (s : DownloadState) (t : StateTransition) :
    DownloadState × Rat :=
  if t.success = false then
    (DownloadState.failed, t.delay_seconds)
  else
    match t.next_state with
    | none => (s, t.delay_seconds)
    | some ns => (ns, t.delay_seconds)

/-- Modelled from the spec: a ResourceEntry produced by a Feed Source
(core/website/model.py is not available in the source tree): title used
as dedup identity, download reference that may be absent (the Python
field is falsy — None or empty — exactly when absent, modelled as the
empty string), and best-effort optional metadata. -/
structure AnimeResourceInfo where
  title : String
  download_url : String
  anime_name : Option String
  episode : Option Nat
  quality : Option String
deriving DecidableEq, Repr

/-- One element of the list handed to RSSManager._collect_new_entries:
asyncio.gather(..., return_exceptions=True) yields, per fetch task,
either a raised exception, some non-list value, or the fetched list of
entries. -/
inductive FetchResult where
  | exc (msg : String)
  | nonList
  | entries (es : List AnimeResourceInfo)
deriving DecidableEq, Repr

/-- The RSSManager object state: the download-manager reference (its
is_downloading predicate; none models a falsy manager, which the
Python guard `self._download_manager and ...` skips) and the website
factory (WebsiteFactory.create keyed by URL; none models the factory
raising, which _get_website_handler turns into None). -/
structure RSSManager where
  download_manager : Option (AnimeResourceInfo → Bool)
  factory : String → Option String

/-- The external collaborators read during one ingestion cycle:
config.rss.urls, each handler's fetch_feed coroutine outcome, and the
History Oracle db.is_downloaded. -/
structure RSSEnv where
  urls : List String
  fetch_feed : String → String → FetchResult
  is_downloaded : String → Bool

/-- RSSManager._get_website_handler: WebsiteFactory.create, with a
raised exception logged and turned into None. -/
def get_website_handler (m : RSSManager) (url : String) : Option String :=
  m.factory url

/-- RSSManager._build_fetch_tasks: one (handler, url) fetch task per
configured URL whose handler could be created, in URL order. -/
def build_fetch_tasks (m : RSSManager) : List String → List (String × String)
  | [] => []
  | url :: rest =>
    match get_website_handler m url with
    | none => build_fetch_tasks m rest
    | some h => (h, url) :: build_fetch_tasks m rest

/-- RSSManager._is_valid_feed_result: exceptions and non-list results
are logged and rejected; only a fetched list is valid. -/
def is_valid_feed_result : FetchResult → Bool
  | FetchResult.entries _ => true
  | _ => false

/-- The entry list carried by a valid fetch result (empty otherwise). -/
def FetchResult.entryList : FetchResult → List AnimeResourceInfo
  | FetchResult.entries es => es
  | _ => []

/-- RSSManager._should_skip_entry: skip when the download reference is
falsy; else skip when db.is_downloaded reports the title obtained;
else skip when a (truthy) download manager is already downloading the
entry; otherwise keep. -/
def should_skip_entry (m : RSSManager) (env : RSSEnv)
    (entry : AnimeResourceInfo) : Bool :=
  if entry.download_url = "" then
    true
  else if env.is_downloaded entry.title then
    true
  else
    match m.download_manager with
    | some is_downloading => if is_downloading entry then true else false
    | none => false

/-- RSSManager._collect_new_entries: walk the gathered results, drop
invalid ones, and from each valid one keep the entries that are not
skipped, in order. -/
def collect_new_entries (m : RSSManager) (env : RSSEnv) :
    List FetchResult → List AnimeResourceInfo
  | [] => []
  | r :: rest =>
    if is_valid_feed_result r then
      r.entryList.filter (fun e => !(should_skip_entry m env e)) ++
        collect_new_entries m env rest
    else
      collect_new_entries m env rest

/-- RSSManager.check_update: empty URL config or no creatable handler
returns []; otherwise gather every task's fetch outcome and collect the
new entries. -/
def check_update (m : RSSManager) (env : RSSEnv) : List AnimeResourceInfo :=
  if env.urls.isEmpty then
    []
  else
    let tasks := build_fetch_tasks m env.urls
    if tasks.isEmpty then
      []
    else
      let results := tasks.map (fun t => env.fetch_feed t.1 t.2)
      collect_new_entries m env results

/-- RSSManager.check_update as a method on the object state: the body
only reads self._download_manager and self._factory and never assigns
to self, so the resulting object state is the input one. -/
def check_update_method (m : RSSManager) (env : RSSEnv) :
    List AnimeResourceInfo × RSSManager :=
  if env.urls.isEmpty then
    ([], m)
  else
    let tasks := build_fetch_tasks m env.urls
    if tasks.isEmpty then
      ([], m)
    else
      let results := tasks.map (fun t => env.fetch_feed t.1 t.2)
      (collect_new_entries m env results, m)

/-- Whether the task registry tracks the entry: the Python condition
`self._download_manager and self._download_manager.is_downloading(entry)`. -/
def tracked (m : RSSManager) (entry : AnimeResourceInfo) : Bool :=
  match m.download_manager with
  | some is_downloading => is_downloading entry
  | none => false

/-- Spec-side description of the ingestion filter chain of §4.4: keep
an entry exactly when it has a download reference, the History Oracle
does not report it obtained, and the registry does not track it. -/
def survives_filters (env : RSSEnv) (is_downloading : AnimeResourceInfo → Bool)
    (e : AnimeResourceInfo) : Bool :=
  !(e.download_url = "") && !(env.is_downloaded e.title) && !(is_downloading e)

/-- Spec-side description of a cycle's output: across the gathered
results in order, the entries of each successfully fetched (valid)
result that survive the filters. -/
def surviving_entries (env : RSSEnv) (is_downloading : AnimeResourceInfo → Bool) :
    List FetchResult → List AnimeResourceInfo
  | [] => []
  | r :: rest =>
    if is_valid_feed_result r then
      r.entryList.filter (survives_filters env is_downloading) ++
        surviving_entries env is_downloading rest
    else
      surviving_entries env is_downloading rest

/-- Spec-side per-source contribution of one configured URL: nothing if
its handler cannot be created or its fetch outcome is not a valid list,
else its non-skipped entries. -/
def source_contribution (m : RSSManager) (env : RSSEnv) (url : String) :
    List AnimeResourceInfo :=
  match m.factory url with
  | none => []
  | some h =>
    match env.fetch_feed h url with
    | FetchResult.entries es =>
      es.filter (fun e => !(should_skip_entry m env e))
    | _ => []

/-- Spec-side whole-cycle output as the concatenation of per-source
contributions in configured URL order. -/
def per_url_output (m : RSSManager) (env : RSSEnv) : List String →
    List AnimeResourceInfo
  | [] => []
  | url :: rest => source_contribution m env url ++ per_url_output m env rest

/-- One chat message dict of the Telegram assistant history: a role
("user" or "assistant") and its text content. -/
structure ChatMessage where
  role : String
  content : String
deriving DecidableEq, Repr

/-- The Python slice history[-limit:]: the last limit elements — except
that limit = 0 denotes history[-0:], which is the whole list. -/
def slice_last (limit : Nat) (l : List ChatMessage) : List ChatMessage :=
  if limit = 0 then l else l.drop (l.length - limit)

/-- Lines 334-336 of TelegramAssistant._append_history: with
limit = max_history * 2, trim the history in place to its last limit
messages when it exceeds the limit. -/
def trim_history (limit : Nat) (history : List ChatMessage) : List ChatMessage :=
  if history.length > limit then slice_last limit history else history

/-- TelegramAssistant._append_history: append the user turn and the
assistant turn, then trim to the last max_history * 2 messages when the
list exceeds that bound. -/
def append_history (max_history : Nat) (history : List ChatMessage)
    (user_text response : String) : List ChatMessage :=
  trim_history (max_history * 2)
    (history ++ [⟨"user", user_text⟩, ⟨"assistant", response⟩])

/-- An entry escapes the skip test exactly when it has a download
reference, is not recorded as downloaded, and is not tracked. -/
theorem should_skip_entry_eq_false_iff (m : RSSManager) (env : RSSEnv)
    (e : AnimeResourceInfo) :
    should_skip_entry m env e = false ↔
      (e.download_url ≠ "" ∧ env.is_downloaded e.title = false ∧
        tracked m e = false) := by
  unfold should_skip_entry tracked
  by_cases h1 : e.download_url = "" <;>
    by_cases h2 : env.is_downloaded e.title <;>
      cases hdm : m.download_manager <;>
        simp [h1, h2, hdm]

/-- When a (truthy) download manager is present, not skipping an entry
is the spec-side filter conjunction. -/
theorem not_skip_eq_survives (m : RSSManager) (env : RSSEnv)
    (isd : AnimeResourceInfo → Bool) (h : m.download_manager = some isd)
    (e : AnimeResourceInfo) :
    (!(should_skip_entry m env e)) = survives_filters env isd e := by
  unfold should_skip_entry survives_filters
  rw [h]
  by_cases h1 : e.download_url = "" <;>
    by_cases h2 : env.is_downloaded e.title <;>
      cases h3 : isd e <;>
        simp [h1, h2, h3]

/-- Collecting new entries computes the spec-side surviving entries when
a download manager is present. -/
theorem collect_eq_surviving (m : RSSManager) (env : RSSEnv)
    (isd : AnimeResourceInfo → Bool) (h : m.download_manager = some isd) :
    ∀ rs : List FetchResult,
      collect_new_entries m env rs = surviving_entries env isd rs := by
  intro rs
  induction rs with
  | nil => rfl
  | cons r rest ih =>
    unfold collect_new_entries surviving_entries
    cases hv : is_valid_feed_result r with
    | false => simpa [hv] using ih
    | true =>
      simp only [hv, if_pos]
      rw [ih, List.filter_congr]
      intro e _
      exact not_skip_eq_survives m env isd h e

end OpenlistAni

namespace OpenlistAni

/-- C4: every StateTransition built by one of the four semantic
constructors (ok, transition, poll, fail) has error_message populated
if and only if its success flag is false. -/
theorem claim_C4_error_iff_failure (ns : Option DownloadState)
    (s s2 : DownloadState) (d : Rat) (msg : String) :
    ((StateTransition.ok ns).error_message.isSome ↔
      (StateTransition.ok ns).success = false) ∧
    ((StateTransition.transition s).error_message.isSome ↔
      (StateTransition.transition s).success = false) ∧
    ((StateTransition.poll s2 d).error_message.isSome ↔
      (StateTransition.poll s2 d).success = false) ∧
    ((StateTransition.fail msg).error_message.isSome ↔
      (StateTransition.fail msg).success = false) := by
  refine ⟨?_, ?_, ?_, ?_⟩ <;> simp [StateTransition.ok, StateTransition.transition,
    StateTransition.poll, StateTransition.fail]

/-- C5 counterexample: poll with delay 0 is accepted by the constructor
and produces a transition whose delay_seconds is 0, refuting the claim
that a poll-built transition always has nonzero delay_seconds. -/
theorem claim_C5_counterexample :
    (StateTransition.poll DownloadState.downloading 0).delay_seconds = 0 ∧
    (StateTransition.poll DownloadState.downloading 0).success = true := by
  constructor <;> rfl

/-- C5 amended: for every state s and delay d, StateTransition.poll s d
has success true, next_state equal to s (an explicit self-transition),
error_message none, and delay_seconds equal to the given d (which may
be zero: the constructor does not force a nonzero delay). -/
theorem claim_C5_poll_fields (s : DownloadState) (d : Rat) :
    (StateTransition.poll s d).success = true ∧
    (StateTransition.poll s d).next_state = some s ∧
    (StateTransition.poll s d).error_message = none ∧
    (StateTransition.poll s d).delay_seconds = d := by
  exact ⟨rfl, rfl, rfl, rfl⟩

/-- C9: the constructors are interdefinable: transition s, ok (some s)
and poll s 0 build equal values, namely success true, next_state s,
delay_seconds 0, error_message none. -/
theorem claim_C9_constructor_agreement (s : DownloadState) :
    StateTransition.transition s = StateTransition.ok (some s) ∧
    StateTransition.ok (some s) = StateTransition.poll s 0 ∧
    StateTransition.poll s 0 =
      (⟨true, some s, 0, none⟩ : StateTransition) := by
  exact ⟨rfl, rfl, rfl⟩

/-- C7: transition application is deterministic: equal current states
and equal StateTransition values yield equal (state, scheduled-delay)
pairs; apply_transition consults nothing beyond its two inputs. -/
theorem claim_C7_transition_deterministic (s1 s2 : DownloadState)
    (t1 t2 : StateTransition) (hs : s1 = s2) (ht : t1 = t2) :
    apply_transition s1 t1 = apply_transition s2 t2 := by
  subst hs; subst ht; rfl

/-- C1: with a download manager present, the ingestion cycle's output
is exactly the entries, across all successfully fetched feed results,
surviving the three ordered dedup filters (download reference present,
not reported downloaded by the oracle, not tracked by the registry). -/
theorem claim_C1_output_is_filtered (m : RSSManager) (env : RSSEnv)
    (isd : AnimeResourceInfo → Bool) (h : m.download_manager = some isd) :
    check_update m env =
      surviving_entries env isd
        ((build_fetch_tasks m env.urls).map (fun t => env.fetch_feed t.1 t.2)) := by
  unfold check_update
  by_cases hu : env.urls.isEmpty
  · have hnil : env.urls = [] := by
      cases henv : env.urls with
      | nil => rfl
      | cons a l => rw [henv] at hu; simp [List.isEmpty] at hu
    simp [hu, hnil, build_fetch_tasks, surviving_entries]
  · simp only [hu, if_neg, Bool.not_eq_true]
    by_cases ht : (build_fetch_tasks m env.urls).isEmpty
    · have hnil : build_fetch_tasks m env.urls = [] := by
        cases hb : build_fetch_tasks m env.urls with
        | nil => rfl
        | cons a l => rw [hb] at ht; simp [List.isEmpty] at ht
      simp [hu, ht, hnil, surviving_entries]
    · simp only [hu, ht, if_neg, Bool.not_eq_true]
      simp [collect_eq_surviving m env isd h]

/-- C1 witness inputs: a manager tracking the title QueuedShow. -/
def c1_isd : AnimeResourceInfo → Bool := fun e => e.title == "QueuedShow"

/-- C1 witness inputs: the manager object with that registry and a
factory that always succeeds. -/
def c1_m : RSSManager := ⟨some c1_isd, fun _ => some "handler"⟩

/-- C1 witness inputs: one feed URL whose fetch yields four entries, one
lacking a reference, one already downloaded, one already tracked, one
genuinely new. -/
def c1_env : RSSEnv :=
  ⟨["https://feed.example/rss"],
   fun _ _ => FetchResult.entries
     [⟨"NoRef", "", none, none, none⟩,
      ⟨"OldShow", "magnet:old", none, none, none⟩,
      ⟨"QueuedShow", "magnet:q", none, none, none⟩,
      ⟨"NewShow", "magnet:new", none, none, none⟩],
   fun t => t == "OldShow"⟩

/-- C1 witness: the filter characterization instantiated at concrete
inputs, and the cycle concretely returns only the genuinely new entry. -/
theorem claim_C1_witness :
    c1_m.download_manager = some c1_isd ∧
    check_update c1_m c1_env =
      surviving_entries c1_env c1_isd
        ((build_fetch_tasks c1_m c1_env.urls).map
          (fun t => c1_env.fetch_feed t.1 t.2)) ∧
    check_update c1_m c1_env = [⟨"NewShow", "magnet:new", none, none, none⟩] :=
  ⟨rfl, claim_C1_output_is_filtered c1_m c1_env c1_isd rfl, by decide⟩

/-- C6: the cycle retains no state on the manager object: running
check_update leaves both fields of the RSSManager (download-manager
reference and website factory) unchanged, and its returned list is the
pure-function output. -/
theorem claim_C6_no_retained_state (m : RSSManager) (env : RSSEnv) :
    (check_update_method m env).2.download_manager = m.download_manager ∧
    (check_update_method m env).2.factory = m.factory ∧
    (check_update_method m env).1 = check_update m env := by
  have h : check_update_method m env = (check_update m env, m) := by
    unfold check_update_method check_update
    by_cases hu : env.urls.isEmpty <;>
      by_cases ht : (build_fetch_tasks m env.urls).isEmpty <;>
        simp [hu, ht]
  rw [h]
  exact ⟨rfl, rfl, rfl⟩

/-- Collecting new entries distributes over list concatenation. -/
theorem collect_new_entries_append (m : RSSManager) (env : RSSEnv)
    (rs1 rs2 : List FetchResult) :
    collect_new_entries m env (rs1 ++ rs2) =
      collect_new_entries m env rs1 ++ collect_new_entries m env rs2 := by
  induction rs1 with
  | nil => rfl
  | cons r rest ih =>
    cases hv : is_valid_feed_result r <;>
      simp [collect_new_entries, hv, ih]

/-- Collecting the gathered fetch outcomes of the built tasks equals
the concatenation of per-source contributions in URL order. -/
theorem collect_tasks_eq_per_url (m : RSSManager) (env : RSSEnv) :
    ∀ urls : List String,
      collect_new_entries m env
        ((build_fetch_tasks m urls).map (fun t => env.fetch_feed t.1 t.2)) =
        per_url_output m env urls := by
  intro urls
  induction urls with
  | nil => rfl
  | cons url rest ih =>
    unfold build_fetch_tasks per_url_output get_website_handler source_contribution
    cases hf : m.factory url with
    | none => simpa [hf] using ih
    | some h =>
      cases hr : env.fetch_feed h url with
      | entries es =>
        simp only [hf, hr, List.map_cons]
        unfold collect_new_entries
        simp [is_valid_feed_result, FetchResult.entryList, ih]
      | exc msg =>
        simp only [hf, hr, List.map_cons]
        unfold collect_new_entries
        simp [is_valid_feed_result, ih]
      | nonList =>
        simp only [hf, hr, List.map_cons]
        unfold collect_new_entries
        simp [is_valid_feed_result, ih]

/-- If no configured URL yields a handler, no entry survives. -/
theorem per_url_output_eq_nil_of_no_tasks (m : RSSManager) (env : RSSEnv) :
    ∀ urls : List String, build_fetch_tasks m urls = [] →
      per_url_output m env urls = [] := by
  intro urls
  induction urls with
  | nil => intro _; rfl
  | cons url rest ih =>
    intro hb
    unfold build_fetch_tasks get_website_handler at hb
    unfold per_url_output source_contribution
    cases hf : m.factory url with
    | none => simp only [hf] at hb; simpa using ih hb
    | some h => rw [hf] at hb; exact absurd hb (by simp)

/-- The whole cycle equals the concatenation of per-source
contributions. -/
theorem check_update_eq_per_url (m : RSSManager) (env : RSSEnv) :
    check_update m env = per_url_output m env env.urls := by
  unfold check_update
  by_cases hu : env.urls.isEmpty
  · have hnil : env.urls = [] := by
      cases henv : env.urls with
      | nil => rfl
      | cons a l => rw [henv] at hu; simp [List.isEmpty] at hu
    simp [hu, hnil, per_url_output]
  · simp only [hu, if_neg, Bool.not_eq_true]
    by_cases ht : (build_fetch_tasks m env.urls).isEmpty
    · have hnil : build_fetch_tasks m env.urls = [] := by
        cases hb : build_fetch_tasks m env.urls with
        | nil => rfl
        | cons a l => rw [hb] at ht; simp [List.isEmpty] at ht
      simp [hu, ht, per_url_output_eq_nil_of_no_tasks m env env.urls hnil]
    · simp only [hu, ht, if_neg, Bool.not_eq_true]
      simp [collect_tasks_eq_per_url m env env.urls]

/-- C2: source-failure isolation: the cycle's output is the
concatenation of independent per-source contributions, and a failing
source (handler creation fails, or its fetch raises or returns a
non-list) contributes the empty list, leaving every other source's
surviving entries in the output. -/
theorem claim_C2_failure_isolation (m : RSSManager) (env : RSSEnv) :
    check_update m env = per_url_output m env env.urls ∧
    ∀ url : String,
      (m.factory url = none ∨
        ∀ h : String, m.factory url = some h →
          is_valid_feed_result (env.fetch_feed h url) = false) →
      source_contribution m env url = [] := by
  refine ⟨check_update_eq_per_url m env, ?_⟩
  intro url hfail
  unfold source_contribution
  cases hf : m.factory url with
  | none => rfl
  | some h =>
    rcases hfail with hnone | hbad
    · rw [hf] at hnone; exact absurd hnone (by simp)
    · have hv := hbad h hf
      cases hr : env.fetch_feed h url with
      | entries es => rw [hr] at hv; simp [is_valid_feed_result] at hv
      | exc msg => simp [hr]
      | nonList => simp [hr]

/-- C2 witness inputs: a manager whose factory fails on the URL bad. -/
def c2_m : RSSManager :=
  ⟨some (fun _ => false),
   fun u => if u == "bad" then none else some "handler"⟩

/-- C2 witness inputs: three URLs — one with a failing handler, one
whose fetch raises, one healthy. -/
def c2_env : RSSEnv :=
  ⟨["bad", "raisy", "good"],
   fun _ u =>
     if u == "raisy" then FetchResult.exc "boom"
     else FetchResult.entries [⟨"NewShow", "magnet:new", none, none, none⟩],
   fun _ => false⟩

/-- C2 witness: failure isolation instantiated at concrete inputs; the
failing sources contribute nothing while the healthy source's entry is
returned. -/
theorem claim_C2_witness :
    check_update c2_m c2_env = per_url_output c2_m c2_env c2_env.urls ∧
    source_contribution c2_m c2_env "bad" = [] ∧
    source_contribution c2_m c2_env "raisy" = [] ∧
    check_update c2_m c2_env = [⟨"NewShow", "magnet:new", none, none, none⟩] :=
  ⟨(claim_C2_failure_isolation c2_m c2_env).1,
   (claim_C2_failure_isolation c2_m c2_env).2 "bad" (Or.inl rfl),
   (claim_C2_failure_isolation c2_m c2_env).2 "raisy"
     (Or.inr (fun h hh => by
        simp only [c2_m] at hh
        simp at hh
        subst hh
        rfl)),
   by decide⟩

/-- If every configured URL fails handler creation, the task list is
empty. -/
theorem build_fetch_tasks_eq_nil (m : RSSManager) :
    ∀ urls : List String, (∀ u ∈ urls, m.factory u = none) →
      build_fetch_tasks m urls = [] := by
  intro urls
  induction urls with
  | nil => intro _; rfl
  | cons url rest ih =>
    intro hall
    unfold build_fetch_tasks get_website_handler
    rw [hall url (List.mem_cons_self url rest)]
    exact ih (fun u hu => hall u (List.mem_cons_of_mem url hu))

/-- C8: with an empty URL configuration, or with every configured URL
failing handler creation, the cycle returns the empty list; the result
is independent of the fetch function, the History Oracle and the task
registry, since they are universally quantified here and unconstrained
by the hypothesis — no fetch, oracle lookup or registry lookup can
influence the outcome. -/
theorem claim_C8_empty_shortcircuit (m : RSSManager) (env : RSSEnv)
    (h : env.urls = [] ∨ ∀ u ∈ env.urls, m.factory u = none) :
    check_update m env = [] := by
  unfold check_update
  rcases h with hnil | hall
  · simp [hnil]
  · by_cases hu : env.urls.isEmpty
    · simp [hu]
    · simp [hu, build_fetch_tasks_eq_nil m env.urls hall]

/-- C8 witness inputs: a manager whose factory always fails. -/
def c8_m : RSSManager := ⟨some (fun _ => true), fun _ => none⟩

/-- C8 witness inputs: two URLs, a fetch that would return an entry and
an oracle that would answer true — none of which can be consulted. -/
def c8_env : RSSEnv :=
  ⟨["u1", "u2"],
   fun _ _ => FetchResult.entries [⟨"X", "magnet:x", none, none, none⟩],
   fun _ => true⟩

/-- C8 witness: the short-circuit instantiated at concrete inputs. -/
theorem claim_C8_witness : check_update c8_m c8_env = [] :=
  claim_C8_empty_shortcircuit c8_m c8_env (Or.inr (fun _ _ => rfl))

/-- Membership in the per-source concatenation means some configured
URL contributes the entry. -/
theorem mem_per_url_output (m : RSSManager) (env : RSSEnv)
    (e : AnimeResourceInfo) :
    ∀ urls : List String,
      (e ∈ per_url_output m env urls ↔
        ∃ url ∈ urls, e ∈ source_contribution m env url) := by
  intro urls
  induction urls with
  | nil => simp [per_url_output]
  | cons url rest ih =>
    simp only [per_url_output, List.mem_append, ih, List.mem_cons]
    constructor
    · rintro (h | ⟨u, hu, he⟩)
      · exact ⟨url, Or.inl rfl, h⟩
      · exact ⟨u, Or.inr hu, he⟩
    · rintro ⟨u, hu | hu, he⟩
      · subst hu; exact Or.inl he
      · exact Or.inr ⟨u, hu, he⟩

/-- Membership in a source's contribution unpacked: a created handler,
a valid fetched entry list containing the entry, and the entry not
skipped. -/
theorem mem_source_contribution (m : RSSManager) (env : RSSEnv)
    (url : String) (e : AnimeResourceInfo) :
    e ∈ source_contribution m env url ↔
      ∃ h : String, m.factory url = some h ∧
        ∃ es : List AnimeResourceInfo,
          env.fetch_feed h url = FetchResult.entries es ∧ e ∈ es ∧
            should_skip_entry m env e = false := by
  unfold source_contribution
  cases hf : m.factory url with
  | none => simp
  | some h =>
    cases hr : env.fetch_feed h url with
    | entries es => simp [hr, List.mem_filter]
    | exc msg => simp [hr]
    | nonList => simp [hr]

/-- C3: idempotent ingestion: if a second cycle runs over the same feed
content (same URLs, same factory, same fetch outcomes) with an oracle
and registry that report no fewer titles downloaded and entries
tracked, and every entry the first cycle returned is by then tracked
or recorded as downloaded, the second cycle returns the empty list. -/
theorem claim_C3_idempotent_ingestion (m1 m2 : RSSManager)
    (env1 env2 : RSSEnv)
    (hurls : env1.urls = env2.urls)
    (hfetch : env1.fetch_feed = env2.fetch_feed)
    (hfact : m1.factory = m2.factory)
    (hmonoD : ∀ t : String,
      env1.is_downloaded t = true → env2.is_downloaded t = true)
    (hmonoT : ∀ e : AnimeResourceInfo,
      tracked m1 e = true → tracked m2 e = true)
    (hcover : ∀ e : AnimeResourceInfo, e ∈ check_update m1 env1 →
      tracked m2 e = true ∨ env2.is_downloaded e.title = true) :
    check_update m2 env2 = [] := by
  rw [List.eq_nil_iff_forall_not_mem]
  intro e he
  rw [check_update_eq_per_url, mem_per_url_output] at he
  obtain ⟨url, hurl, hcontrib⟩ := he
  rw [mem_source_contribution] at hcontrib
  obtain ⟨h, hf, es, hr, hees, hskip⟩ := hcontrib
  rw [should_skip_entry_eq_false_iff] at hskip
  obtain ⟨hdl, hdown2, htrack2⟩ := hskip
  have he1 : e ∈ check_update m1 env1 := by
    rw [check_update_eq_per_url, mem_per_url_output]
    refine ⟨url, by rw [hurls]; exact hurl, ?_⟩
    rw [mem_source_contribution]
    refine ⟨h, by rw [hfact]; exact hf, es, by rw [hfetch]; exact hr, hees, ?_⟩
    rw [should_skip_entry_eq_false_iff]
    refine ⟨hdl, ?_, ?_⟩
    · cases hd1 : env1.is_downloaded e.title with
      | false => rfl
      | true => rw [hmonoD e.title hd1] at hdown2; exact absurd hdown2 (by simp)
    · cases ht1 : tracked m1 e with
      | false => rfl
      | true => rw [hmonoT e ht1] at htrack2; exact absurd htrack2 (by simp)
  rcases hcover e he1 with hc | hc
  · rw [hc] at htrack2; exact absurd htrack2 (by simp)
  · rw [hc] at hdown2; exact absurd hdown2 (by simp)

/-- C3 witness inputs: the first-cycle manager tracks nothing. -/
def c3_m1 : RSSManager := ⟨some (fun _ => false), fun _ => some "handler"⟩

/-- C3 witness inputs: the second-cycle manager now tracks the title
NewShow that the first cycle returned. -/
def c3_m2 : RSSManager :=
  ⟨some (fun e => e.title == "NewShow"), fun _ => some "handler"⟩

/-- C3 witness inputs: first-cycle environment: one URL, one entry,
nothing downloaded yet. -/
def c3_env1 : RSSEnv :=
  ⟨["https://feed.example/rss"],
   fun _ _ => FetchResult.entries [⟨"NewShow", "magnet:new", none, none, none⟩],
   fun _ => false⟩

/-- C3 witness inputs: second-cycle environment: same feed content,
same oracle. -/
def c3_env2 : RSSEnv :=
  ⟨["https://feed.example/rss"],
   fun _ _ => FetchResult.entries [⟨"NewShow", "magnet:new", none, none, none⟩],
   fun _ => false⟩

/-- C3 witness: the first cycle concretely returns one entry; after
that entry becomes tracked, idempotence applied at these concrete
inputs makes the second cycle return nothing. -/
theorem claim_C3_witness :
    check_update c3_m1 c3_env1 =
      [⟨"NewShow", "magnet:new", none, none, none⟩] ∧
    check_update c3_m2 c3_env2 = [] := by
  refine ⟨by decide, ?_⟩
  refine claim_C3_idempotent_ingestion c3_m1 c3_m2 c3_env1 c3_env2 rfl rfl rfl
    (fun t ht => ht) (fun e ht => absurd ht (by simp [c3_m1, tracked])) ?_
  intro e he
  have he2 : e ∈ [(⟨"NewShow", "magnet:new", none, none, none⟩ : AnimeResourceInfo)] := by
    have hq : check_update c3_m1 c3_env1 =
        [(⟨"NewShow", "magnet:new", none, none, none⟩ : AnimeResourceInfo)] := by decide
    rw [hq] at he
    exact he
  rw [List.mem_singleton] at he2
  subst he2
  exact Or.inl rfl

/-- C10: conversation history is bounded: with max_history at least 1,
after appending one user/assistant turn the history holds exactly
min (previous length + 2) (2 * max_history) messages, the result is a
suffix of the appended list (the most recent messages in their original
order), and it ends with the turn just appended. -/
theorem claim_C10_history_bounded (max_history : Nat) (hm : 1 ≤ max_history)
    (history : List ChatMessage) (u r : String) :
    (append_history max_history history u r).length =
      min (history.length + 2) (max_history * 2) ∧
    append_history max_history history u r <:+
      history ++ [⟨"user", u⟩, ⟨"assistant", r⟩] ∧
    [(⟨"user", u⟩ : ChatMessage), ⟨"assistant", r⟩] <:+
      append_history max_history history u r := by
  unfold append_history trim_history slice_last
  by_cases hgt :
      (history ++ [(⟨"user", u⟩ : ChatMessage), ⟨"assistant", r⟩]).length >
        max_history * 2
  · rw [if_pos hgt]
    have hm2 : ¬ max_history * 2 = 0 := by omega
    rw [if_neg hm2]
    have hlen :
        (history ++ [(⟨"user", u⟩ : ChatMessage), ⟨"assistant", r⟩]).length =
          history.length + 2 := by
      simp
    refine ⟨?_, List.drop_suffix _ _, ?_⟩
    · rw [List.length_drop, hlen]
      rw [hlen] at hgt
      omega
    · have hk :
          (history ++ [(⟨"user", u⟩ : ChatMessage), ⟨"assistant", r⟩]).length -
            max_history * 2 ≤ history.length := by
        rw [hlen]; omega
      rw [List.drop_append_of_le_length hk]
      exact List.suffix_append _ _
  · rw [if_neg hgt]
    have hlen :
        (history ++ [(⟨"user", u⟩ : ChatMessage), ⟨"assistant", r⟩]).length =
          history.length + 2 := by
      simp
    refine ⟨?_, List.suffix_rfl, List.suffix_append _ _⟩
    rw [hlen]
    rw [hlen] at hgt
    omega

/-- C10 witness: a two-message history with max_history 1 overflows on
the new turn and is trimmed to exactly the turn just appended. -/
theorem claim_C10_witness :
    1 ≤ 1 ∧
    ((append_history 1 [⟨"user", "m1"⟩, ⟨"assistant", "m2"⟩] "hi" "hello").length =
        min (([(⟨"user", "m1"⟩ : ChatMessage), ⟨"assistant", "m2"⟩]).length + 2)
          (1 * 2) ∧
      append_history 1 [⟨"user", "m1"⟩, ⟨"assistant", "m2"⟩] "hi" "hello" <:+
        ([⟨"user", "m1"⟩, ⟨"assistant", "m2"⟩] ++
          [⟨"user", "hi"⟩, ⟨"assistant", "hello"⟩]) ∧
      [(⟨"user", "hi"⟩ : ChatMessage), ⟨"assistant", "hello"⟩] <:+
        append_history 1 [⟨"user", "m1"⟩, ⟨"assistant", "m2"⟩] "hi" "hello") ∧
    append_history 1 [⟨"user", "m1"⟩, ⟨"assistant", "m2"⟩] "hi" "hello" =
      [⟨"user", "hi"⟩, ⟨"assistant", "hello"⟩] :=
  ⟨Nat.le_refl 1,
   claim_C10_history_bounded 1 (Nat.le_refl 1)
     [⟨"user", "m1"⟩, ⟨"assistant", "m2"⟩] "hi" "hello",
   by decide⟩

/-- C7 witness: determinism instantiated at a concrete state and
transition. -/
theorem claim_C7_witness :
    apply_transition DownloadState.downloading
        (StateTransition.poll DownloadState.downloading 30) =
      apply_transition DownloadState.downloading
        (StateTransition.poll DownloadState.downloading 30) :=
  claim_C7_transition_deterministic DownloadState.downloading
    DownloadState.downloading
    (StateTransition.poll DownloadState.downloading 30)
    (StateTransition.poll DownloadState.downloading 30) rfl rfl

end OpenlistAni
